/-
Verification of the frontend-logging source-map subsystem
(pkg/api/frontendlogging/source_maps.go).

The Go code is shallowly embedded: the mutex-guarded cache becomes explicit
state passing over a `SourceMapStore` value, the injected byte reader and the
external source-map parser become function-valued fields of the store, and
every call additionally returns a `CallTrace` counting how often the location
resolver, the reader and the parser were invoked (so that "never invoked
again" properties are statable).  Go standard-library helpers that the code
relies on (`net/url.Parse` path extraction, `path/filepath.Clean` and `Join`,
`strings.HasPrefix`, byte slicing, `net/http.Dir.Open`) are modelled by
structurally recursive Lean functions over the characters of the strings.
-/
import Mathlib

set_option maxRecDepth 10000

deriving instance DecidableEq for Except

namespace FrontendLogging

/-! ## String helpers (models of Go standard-library operations) -/

/-- Model of Go `strings.HasPrefix` at the character level:
`charsHasPre p s` is true when `p` is an initial segment of `s`. -/
def charsHasPre : List Char → List Char → Bool
  | [], _ => true
  | _ :: _, [] => false
  | p :: ps, c :: cs => p = c && charsHasPre ps cs

/-- Model of Go `strings.HasPrefix s pre`. -/
def goStrHasPre (s pre : String) : Bool :=
  charsHasPre pre.data s.data

/-- Model of Go string slicing `s[n:]` (ASCII assumption: bytes = chars). -/
def strDropN (s : String) (n : Nat) : String :=
  String.mk (s.data.drop n)

/-- Characters before the first occurrence of `stop`. -/
def takeUntilChar (stop : Char) : List Char → List Char
  | [] => []
  | c :: rest => if c = stop then [] else c :: takeUntilChar stop rest

/-- Drop characters through the first `"://"`; `none` when absent. -/
def dropThroughSchemeSep : List Char → Option (List Char)
  | ':' :: '/' :: '/' :: rest => some rest
  | _ :: rest => dropThroughSchemeSep rest
  | [] => none

/-- Drop characters up to (excluding) the first `'/'`. -/
def dropUntilSlash : List Char → List Char
  | [] => []
  | c :: rest => if c = '/' then c :: rest else dropUntilSlash rest

/-! ## Path cleaning (model of Go `path/filepath.Clean` and `Join`) -/

/-- Split a path into its `'/'`-separated segments. -/
def pathSegs (s : String) : List String :=
  go [] s.data
where
  go (cur : List Char) : List Char → List String
    | [] => [String.mk cur.reverse]
    | c :: rest => if c = '/' then String.mk cur.reverse :: go [] rest
                   else go (c :: cur) rest

/-- The segment-processing core of Go `filepath.Clean`: empty and `"."`
segments are elided; `".."` pops the previous segment when one exists, is
discarded at the root of a rooted path, and is kept at the head of a
relative path.  `acc` holds the already-emitted segments in reverse. -/
def cleanSegs (rooted : Bool) (acc : List String) : List String → List String
  | [] => acc.reverse
  | seg :: rest =>
      if seg = "" ∨ seg = "." then cleanSegs rooted acc rest
      else if seg = ".." then
        match acc with
        | [] => if rooted then cleanSegs rooted [] rest
                else cleanSegs rooted [".."] rest
        | a :: as =>
            if a = ".." then cleanSegs rooted (".." :: a :: as) rest
            else cleanSegs rooted as rest
      else cleanSegs rooted (seg :: acc) rest

/-- Join segments back with `'/'`. -/
def joinSegs : List String → String
  | [] => ""
  | [s] => s
  | s :: rest => s ++ "/" ++ joinSegs rest

/-- Model of Go `path/filepath.Clean` (Unix separator). -/
def filepathClean (p : String) : String :=
  if p = "" then "."
  else
    let rooted := goStrHasPre p "/"
    let segs := cleanSegs rooted [] (pathSegs p)
    if rooted then "/" ++ joinSegs segs
    else if segs.isEmpty then "." else joinSegs segs

/-- Model of Go `path/filepath.Join` on two elements: empty elements are
skipped, the rest are joined with `'/'` and the result is cleaned. -/
def filepathJoin2 (a b : String) : String :=
  if a = "" then (if b = "" then "" else filepathClean b)
  else if b = "" then filepathClean a
  else filepathClean (a ++ "/" ++ b)

/-! ## Errors and URLs -/

/-- The error values the embedded code distinguishes: a URL syntax error
from `url.Parse`, the reader's "file does not exist" condition recognised by
`os.IsNotExist`, any other I/O error, and a source-map parse error. -/
inductive GoError where
  | urlError (msg : String)
  | notExist
  | ioError (msg : String)
  | parseError (msg : String)
deriving DecidableEq

/-- Model of Go `os.IsNotExist`. -/
def isNotExist : GoError → Bool
  | .notExist => true
  | _ => false

/-- The part of Go `net/url.URL` the code reads. -/
structure GoURL where
  path : String
deriving DecidableEq

/-- Characters Go `net/url.Parse` rejects outright (ASCII controls). -/
def hasCtlChar (s : String) : Bool :=
  s.data.any fun c => decide (c.toNat < 32) || decide (c.toNat = 127)

/-- Path extraction of Go `net/url.Parse`, restricted to what the code
needs: strip the fragment and the query, then either the string itself (a
path-only reference) or everything from the first `'/'` after `"://"`. -/
def extractPath (s : String) : String :=
  let cs := takeUntilChar '?' (takeUntilChar '#' s.data)
  match cs with
  | '/' :: _ => String.mk cs
  | _ =>
      match dropThroughSchemeSep cs with
      | none => String.mk cs
      | some rest => String.mk (dropUntilSlash rest)

/-- Model of Go `net/url.Parse`: fails on a control character (malformed
URL), otherwise yields the URL's path component. -/
def urlParse (rawurl : String) : Except GoError GoURL :=
  if hasCtlChar rawurl then .error (.urlError "invalid control character in URL")
  else .ok ⟨extractPath rawurl⟩

/-! ## Data model of source_maps.go -/

/-- `sourceMapLocation` from source_maps.go. -/
structure sourceMapLocation where
  dir : String
  path : String
  pluginID : String
deriving DecidableEq

/-- The opaque `sourcemap.Consumer` handle: its only observed behaviour is
`Source(line, col)`, returning `(file, function, line, col)` when the map
has a mapping at that exact position. -/
structure Consumer where
  source : Int → Int → Option (String × String × Int × Int)

/-- `sourceMap` from source_maps.go: a parsed consumer plus the owning
plugin identifier (empty for core assets). -/
structure sourceMap where
  consumer : Consumer
  pluginID : String

/-- One entry of the external `plugins.StaticRoutes` registry. -/
structure StaticRoute where
  pluginId : String
  directory : String
deriving DecidableEq

/-- The `setting.Cfg` field the code reads. -/
structure Cfg where
  staticRootPath : String
deriving DecidableEq

/-- The subset of `sentry.Frame` fields.  Field defaults mirror Go zero
values: a struct literal that names only some fields zeroes the rest. -/
structure Frame where
  function : String := ""
  symbol : String := ""
  module : String := ""
  package : String := ""
  filename : String := ""
  absPath : String := ""
  lineno : Int := 0
  colno : Int := 0
  contextLine : String := ""
  inApp : Bool := false
deriving DecidableEq

/-- Effect counters for one call: how often the location resolver, the
injected reader and the source-map parser were invoked. -/
structure CallTrace where
  resolverCalls : Nat
  readerCalls : Nat
  parseCalls : Nat
deriving DecidableEq

/-- `SourceMapStore`: the cache is the mutable state (an association list,
first binding wins, mirroring the Go map); `readSourceMap` is the injected
reader; `parse` stands for the external `sourcemap.Parse`; `staticRoutes`
stands for the external `plugins.StaticRoutes` registry. -/
structure SourceMapStore where
  cache : List (String × Option sourceMap)
  cfg : Cfg
  readSourceMap : String → String → Except GoError String
  parse : String → String → Except GoError Consumer
  staticRoutes : List StaticRoute

/-- Go map lookup on the association-list cache. -/
def lookupCache : List (String × Option sourceMap) → String → Option (Option sourceMap)
  | [], _ => none
  | (k, v) :: rest, url => if k = url then some v else lookupCache rest url

/-! ## The functions of source_maps.go -/

/-- The plugin-route loop of `guessSourceMapLocation`: first route whose
`filepath.Join("/public/plugins/", pluginId)` is a string prefix of the
URL path wins. -/
def findPluginRoute : List StaticRoute → String → Option sourceMapLocation
  | [], _ => none
  | route :: rest, p =>
      if goStrHasPre p (filepathJoin2 "/public/plugins/" route.pluginId) then
        some { dir := route.directory
             , path := strDropN p (filepathJoin2 "/public/plugins/" route.pluginId).length ++ ".map"
             , pluginID := route.pluginId }
      else findPluginRoute rest p

/-- `guessSourceMapLocation` from source_maps.go. -/
def guessSourceMapLocation (store : SourceMapStore) (sourceURL : String) :
    Except GoError (Option sourceMapLocation) :=
  match urlParse sourceURL with
  | .error e => .error e
  | .ok u =>
      if goStrHasPre u.path "/public/build/" then
        .ok (some { dir := store.cfg.staticRootPath
                  , path := filepathJoin2 "build" (strDropN u.path 14) ++ ".map"
                  , pluginID := "" })
      else if goStrHasPre u.path "/public/plugins/" then
        .ok (findPluginRoute store.staticRoutes u.path)
      else
        .ok none

/-- The path normalization `getSourceMap` applies before calling the
reader: force a leading separator on an absolute-looking path, then
`filepath.Clean`. -/
def normalizeMapPath (p : String) : String :=
  filepathClean (if goStrHasPre p "/" then "/" ++ p else p)

/-- The read-and-parse tail of `getSourceMap`, reached on a cache miss with
a known location: a "not found" read error is cached negatively and is not
an error; any other read error and any parse error propagate and cache
nothing; a parsed map is cached positively. -/
def getSourceMapLoad (store : SourceMapStore) (sourceURL : String)
    (loc : sourceMapLocation) :
    Except GoError (Option sourceMap) × SourceMapStore × CallTrace :=
  match store.readSourceMap loc.dir (normalizeMapPath loc.path) with
  | .error err =>
      if isNotExist err then
        (.ok none, { store with cache := (sourceURL, none) :: store.cache }, ⟨1, 1, 0⟩)
      else
        (.error err, store, ⟨1, 1, 0⟩)
  | .ok b =>
      match store.parse (sourceURL ++ ".map") b with
      | .error err => (.error err, store, ⟨1, 1, 1⟩)
      | .ok consumer =>
          (.ok (some { consumer := consumer, pluginID := loc.pluginID })
          , { store with cache :=
                (sourceURL, some { consumer := consumer, pluginID := loc.pluginID })
                  :: store.cache }
          , ⟨1, 1, 1⟩)

/-- The cache-miss path of `getSourceMap`: guess the location; an unknown
location is cached negatively; otherwise load. -/
def getSourceMapMiss (store : SourceMapStore) (sourceURL : String) :
    Except GoError (Option sourceMap) × SourceMapStore × CallTrace :=
  match guessSourceMapLocation store sourceURL with
  | .error err => (.error err, store, ⟨1, 0, 0⟩)
  | .ok none =>
      (.ok none, { store with cache := (sourceURL, none) :: store.cache }, ⟨1, 0, 0⟩)
  | .ok (some loc) => getSourceMapLoad store sourceURL loc

/-- `getSourceMap` from source_maps.go (the body of the critical section:
the Go mutex serializes whole calls, which explicit state passing models). -/
def getSourceMap (store : SourceMapStore) (sourceURL : String) :
    Except GoError (Option sourceMap) × SourceMapStore × CallTrace :=
  match lookupCache store.cache sourceURL with
  | some smap => (.ok smap, store, ⟨0, 0, 0⟩)
  | none => getSourceMapMiss store sourceURL

/-- `resolveSourceLocation` from source_maps.go. -/
def resolveSourceLocation (store : SourceMapStore) (frame : Frame) :
    Except GoError (Option Frame) × SourceMapStore × CallTrace :=
  match getSourceMap store frame.filename with
  | (.error err, store1, t) => (.error err, store1, t)
  | (.ok none, store1, t) => (.ok none, store1, t)
  | (.ok (some smap), store1, t) =>
      match smap.consumer.source frame.lineno frame.colno with
      | none => (.ok none, store1, t)
      | some (file, function, line, col) =>
          (.ok (some { filename := file
                     , lineno := line
                     , colno := col
                     , function := if function.length = 0 then "?" else function
                     , module := if smap.pluginID.length > 0 then smap.pluginID else "core" })
          , store1, t)

/-- A sequence of further `getSourceMap` calls against the store: the
store's lifetime, as observed through the cache. -/
def runCalls (store : SourceMapStore) : List String → SourceMapStore
  | [] => store
  | u :: us => runCalls (getSourceMap store u).2.1 us

/-! ## Scoped filesystem reads (model of `ReadSourceMapFromFs`) -/

/-- Modelled from Go `net/http`: `http.Dir(dir).Open(name)` serves the file
reached by walking, from the root directory `dir`, the cleaned segments of
`path.Clean ("/" ++ name)` (Go joins `dir` with that rooted, cleaned path).
These are exactly the segments `filepathClean` computes for the rooted
path. -/
def httpDirOpenSegs (name : String) : List String :=
  cleanSegs true [] (pathSegs ("/" ++ name))

/-- Depth-tracking interpretation of walking `segs` from a directory root:
`true` when a `".."` step would climb above the root, i.e. the walk escapes
the directory's boundary. -/
def escapesDir : Nat → List String → Bool
  | _, [] => false
  | d, seg :: rest =>
      if seg = ".." then
        match d with
        | 0 => true
        | d2 + 1 => escapesDir d2 rest
      else if seg = "" ∨ seg = "." then escapesDir d rest
      else escapesDir (d + 1) rest

/-- `ReadSourceMapFromFs` from source_maps.go over an abstract filesystem
`fs : directory → walked segments → contents`: it opens the map file via
`http.Dir(dir).Open(path)` (hence at `httpDirOpenSegs path` inside `dir`),
reads all bytes, and maps an absent file to the "not exist" error. -/
def ReadSourceMapFromFs (fs : String → List String → Option String)
    (dir path : String) : Except GoError String :=
  match fs dir (httpDirOpenSegs path) with
  | none => .error .notExist
  | some b => .ok b

/-! ## Concrete example environments used by witnesses -/

/-- A consumer whose map asserts that minified (1,2) maps to
`module.ts:3:7` in function `orig.fn`. -/
def exConsumer : Consumer :=
  ⟨fun L C => if L == 1 && C == 2 then some ("module.ts", "orig.fn", 3, 7) else none⟩

/-- A store with one plugin route, a reader that always succeeds and a
parser producing `exConsumer`. -/
def exStore : SourceMapStore :=
  { cache := []
  , cfg := { staticRootPath := "/usr/share/grafana/public" }
  , readSourceMap := fun _ _ => .ok "mapbytes"
  , parse := fun _ _ => .ok exConsumer
  , staticRoutes := [{ pluginId := "acme-panel", directory := "/var/lib/grafana/plugins/acme-panel" }] }

/-- Registered route order in which the identifier `"acme"` precedes
`"acme-panel"`. -/
def shadowStore : SourceMapStore :=
  { exStore with staticRoutes :=
      [ { pluginId := "acme", directory := "/plugins/acme" }
      , { pluginId := "acme-panel", directory := "/plugins/acme-panel" } ] }

/-- A consumer whose map asserts an empty function name at (1,2). -/
def emptyFnConsumer : Consumer :=
  ⟨fun L C => if L == 1 && C == 2 then some ("orig.ts", "", 10, 5) else none⟩

/-- A store whose cache already holds a parsed map for `"min.js"` with an
empty function name at (1,2). -/
def cexStore : SourceMapStore :=
  { exStore with cache := [("min.js", some { consumer := emptyFnConsumer, pluginID := "" })] }

/-- A store whose cache already holds a parsed map for `"u.js"` owned by
plugin `"acme-panel"`. -/
def cachedStore : SourceMapStore :=
  { exStore with cache := [("u.js", some { consumer := exConsumer, pluginID := "acme-panel" })] }

/-- A store whose reader fails with a non-"not found" I/O error. -/
def readErrStore : SourceMapStore :=
  { exStore with readSourceMap := fun _ _ => .error (.ioError "permission denied") }

/-- A store whose parser rejects every map. -/
def parseErrStore : SourceMapStore :=
  { exStore with parse := fun _ _ => .error (.parseError "malformed source map") }

/-- A store whose reader reports every file as absent. -/
def notFoundStore : SourceMapStore :=
  { exStore with readSourceMap := fun _ _ => .error .notExist }

/-! ## Cache lemmas -/

theorem lookup_insert_self (c : List (String × Option sourceMap)) (k : String)
    (v : Option sourceMap) : lookupCache ((k, v) :: c) k = some v := by
  simp [lookupCache]

theorem lookup_insert_of_ne (c : List (String × Option sourceMap)) {k url : String}
    (v : Option sourceMap) (h : k ≠ url) :
    lookupCache ((k, v) :: c) url = lookupCache c url := by
  simp [lookupCache, h]

/-- A cache hit returns the stored entry unchanged with no effects. -/
theorem getSourceMap_cached {store : SourceMapStore} {url : String}
    {v : Option sourceMap} (h : lookupCache store.cache url = some v) :
    getSourceMap store url = (.ok v, store, ⟨0, 0, 0⟩) := by
  unfold getSourceMap
  simp only [h]

/-- A cache miss falls through to the miss path. -/
theorem getSourceMap_miss {store : SourceMapStore} {url : String}
    (h : lookupCache store.cache url = none) :
    getSourceMap store url = getSourceMapMiss store url := by
  unfold getSourceMap
  simp only [h]

/-- Miss path, malformed URL: the error propagates, nothing is cached. -/
theorem miss_urlerr {store : SourceMapStore} {url : String} {e : GoError}
    (h : guessSourceMapLocation store url = .error e) :
    getSourceMapMiss store url = (.error e, store, ⟨1, 0, 0⟩) := by
  unfold getSourceMapMiss
  simp only [h]

/-- Miss path, unknown location: none, cached negatively. -/
theorem miss_unknown {store : SourceMapStore} {url : String}
    (h : guessSourceMapLocation store url = .ok none) :
    getSourceMapMiss store url =
      (.ok none, { store with cache := (url, none) :: store.cache }, ⟨1, 0, 0⟩) := by
  unfold getSourceMapMiss
  simp only [h]

/-- Miss path, known location: continue with the load. -/
theorem miss_some {store : SourceMapStore} {url : String} {loc : sourceMapLocation}
    (h : guessSourceMapLocation store url = .ok (some loc)) :
    getSourceMapMiss store url = getSourceMapLoad store url loc := by
  unfold getSourceMapMiss
  simp only [h]

/-- Load, file absent: none, cached negatively. -/
theorem load_notfound {store : SourceMapStore} {url : String} {loc : sourceMapLocation}
    {err : GoError}
    (h : store.readSourceMap loc.dir (normalizeMapPath loc.path) = .error err)
    (hx : isNotExist err = true) :
    getSourceMapLoad store url loc =
      (.ok none, { store with cache := (url, none) :: store.cache }, ⟨1, 1, 0⟩) := by
  unfold getSourceMapLoad
  simp only [h, hx, if_true]

/-- Load, other read error: the error propagates, nothing is cached. -/
theorem load_readerr {store : SourceMapStore} {url : String} {loc : sourceMapLocation}
    {err : GoError}
    (h : store.readSourceMap loc.dir (normalizeMapPath loc.path) = .error err)
    (hx : isNotExist err = false) :
    getSourceMapLoad store url loc = (.error err, store, ⟨1, 1, 0⟩) := by
  unfold getSourceMapLoad
  simp only [h, hx, Bool.false_eq_true, if_false]

/-- Load, parse failure: the error propagates, nothing is cached. -/
theorem load_parseerr {store : SourceMapStore} {url : String} {loc : sourceMapLocation}
    {b : String} {err : GoError}
    (h : store.readSourceMap loc.dir (normalizeMapPath loc.path) = .ok b)
    (hp : store.parse (url ++ ".map") b = .error err) :
    getSourceMapLoad store url loc = (.error err, store, ⟨1, 1, 1⟩) := by
  unfold getSourceMapLoad
  simp only [h, hp]

/-- Load, success: the parsed map is cached positively and returned. -/
theorem load_parsed {store : SourceMapStore} {url : String} {loc : sourceMapLocation}
    {b : String} {consumer : Consumer}
    (h : store.readSourceMap loc.dir (normalizeMapPath loc.path) = .ok b)
    (hp : store.parse (url ++ ".map") b = .ok consumer) :
    getSourceMapLoad store url loc =
      (.ok (some { consumer := consumer, pluginID := loc.pluginID })
      , { store with cache :=
            (url, some { consumer := consumer, pluginID := loc.pluginID }) :: store.cache }
      , ⟨1, 1, 1⟩) := by
  unfold getSourceMapLoad
  simp only [h, hp]

/-- Any successful `getSourceMap` leaves its result in the cache. -/
theorem getSourceMap_ok_cached {store : SourceMapStore} {url : String}
    {v : Option sourceMap} {s : SourceMapStore} {t : CallTrace}
    (h : getSourceMap store url = (.ok v, s, t)) :
    lookupCache s.cache url = some v := by
  cases hc : lookupCache store.cache url with
  | some w =>
      rw [getSourceMap_cached hc] at h
      simp only [Prod.mk.injEq, Except.ok.injEq] at h
      obtain ⟨h1, h2, -⟩ := h
      subst h2
      rw [h1] at hc
      exact hc
  | none =>
      rw [getSourceMap_miss hc] at h
      cases hg : guessSourceMapLocation store url with
      | error e => rw [miss_urlerr hg] at h; simp at h
      | ok o =>
          cases o with
          | none =>
              rw [miss_unknown hg] at h
              simp only [Prod.mk.injEq, Except.ok.injEq] at h
              obtain ⟨h1, h2, -⟩ := h
              rw [← h2, ← h1]
              exact lookup_insert_self _ _ _
          | some loc =>
              rw [miss_some hg] at h
              cases hr : store.readSourceMap loc.dir (normalizeMapPath loc.path) with
              | error err =>
                  cases hnx : isNotExist err with
                  | true =>
                      rw [load_notfound hr hnx] at h
                      simp only [Prod.mk.injEq, Except.ok.injEq] at h
                      obtain ⟨h1, h2, -⟩ := h
                      rw [← h2, ← h1]
                      exact lookup_insert_self _ _ _
                  | false =>
                      rw [load_readerr hr hnx] at h
                      simp at h
              | ok b =>
                  cases hp : store.parse (url ++ ".map") b with
                  | error e2 => rw [load_parseerr hr hp] at h; simp at h
                  | ok consumer =>
                      rw [load_parsed hr hp] at h
                      simp only [Prod.mk.injEq, Except.ok.injEq] at h
                      obtain ⟨h1, h2, -⟩ := h
                      rw [← h2, ← h1]
                      exact lookup_insert_self _ _ _

/-- `getSourceMap` never removes or changes an existing cache entry. -/
theorem cache_preserved {store : SourceMapStore} {url : String}
    {v : Option sourceMap} (u : String)
    (h : lookupCache store.cache url = some v) :
    lookupCache ((getSourceMap store u).2.1).cache url = some v := by
  cases hc : lookupCache store.cache u with
  | some w => rw [getSourceMap_cached hc]; exact h
  | none =>
      have hne : u ≠ url := by
        intro he
        rw [he] at hc
        rw [hc] at h
        exact Option.noConfusion h
      rw [getSourceMap_miss hc]
      cases hg : guessSourceMapLocation store u with
      | error e => rw [miss_urlerr hg]; exact h
      | ok o =>
          cases o with
          | none =>
              rw [miss_unknown hg]
              simpa [lookup_insert_of_ne _ _ hne] using h
          | some loc =>
              rw [miss_some hg]
              cases hr : store.readSourceMap loc.dir (normalizeMapPath loc.path) with
              | error err =>
                  cases hnx : isNotExist err with
                  | true =>
                      rw [load_notfound hr hnx]
                      simpa [lookup_insert_of_ne _ _ hne] using h
                  | false => rw [load_readerr hr hnx]; exact h
              | ok b =>
                  cases hp : store.parse (u ++ ".map") b with
                  | error e2 => rw [load_parseerr hr hp]; exact h
                  | ok consumer =>
                      rw [load_parsed hr hp]
                      simpa [lookup_insert_of_ne _ _ hne] using h

/-- Cache entries survive any sequence of further calls. -/
theorem runCalls_preserved {store : SourceMapStore} {url : String}
    {v : Option sourceMap} (h : lookupCache store.cache url = some v) :
    ∀ us : List String, lookupCache ((runCalls store us).cache) url = some v := by
  intro us
  induction us generalizing store with
  | nil => exact h
  | cons u rest ih =>
      unfold runCalls
      exact ih (cache_preserved u h)

/-! ## Frame-resolution lemmas -/

/-- A failing map lookup propagates through `resolveSourceLocation`. -/
theorem resolve_err {store : SourceMapStore} {fr : Frame} {e : GoError}
    {s : SourceMapStore} {t : CallTrace}
    (h : getSourceMap store fr.filename = (.error e, s, t)) :
    resolveSourceLocation store fr = (.error e, s, t) := by
  unfold resolveSourceLocation
  simp only [h]

/-- No map for the URL: the frame is not resolved, without error. -/
theorem resolve_none {store : SourceMapStore} {fr : Frame}
    {s : SourceMapStore} {t : CallTrace}
    (h : getSourceMap store fr.filename = (.ok none, s, t)) :
    resolveSourceLocation store fr = (.ok none, s, t) := by
  unfold resolveSourceLocation
  simp only [h]

/-- A map without a mapping at the frame's exact position: none, no error. -/
theorem resolve_nomap {store : SourceMapStore} {fr : Frame} {smap : sourceMap}
    {s : SourceMapStore} {t : CallTrace}
    (h : getSourceMap store fr.filename = (.ok (some smap), s, t))
    (hsrc : smap.consumer.source fr.lineno fr.colno = none) :
    resolveSourceLocation store fr = (.ok none, s, t) := by
  unfold resolveSourceLocation
  simp only [h, hsrc]

/-- A mapped position produces the freshly constructed resolved frame. -/
theorem resolve_mapped {store : SourceMapStore} {fr : Frame} {smap : sourceMap}
    {s : SourceMapStore} {t : CallTrace} {file fn : String} {line col : Int}
    (h : getSourceMap store fr.filename = (.ok (some smap), s, t))
    (hsrc : smap.consumer.source fr.lineno fr.colno = some (file, fn, line, col)) :
    resolveSourceLocation store fr =
      (.ok (some { filename := file
                 , lineno := line
                 , colno := col
                 , function := if fn.length = 0 then "?" else fn
                 , module := if smap.pluginID.length > 0 then smap.pluginID else "core" })
      , s, t) := by
  unfold resolveSourceLocation
  simp only [h, hsrc]

/-- A string of length zero is the empty string. -/
theorem string_eq_empty_of_length_zero {s : String} (h : s.length = 0) : s = "" := by
  cases s with
  | mk data =>
      cases data with
      | nil => rfl
      | cons c cs => simp [String.length] at h

/-! ## Path-cleaning safety lemmas -/

/-- Cleaning a rooted path leaves only plain segments: no `".."`, no `"."`,
no empty segment. -/
theorem cleanSegs_plain : ∀ (l acc : List String),
    (∀ s ∈ acc, s ≠ ".." ∧ s ≠ "." ∧ s ≠ "") →
    ∀ s ∈ cleanSegs true acc l, s ≠ ".." ∧ s ≠ "." ∧ s ≠ "" := by
  intro l
  induction l with
  | nil =>
      intro acc hacc s hs
      unfold cleanSegs at hs
      exact hacc s (List.mem_reverse.mp hs)
  | cons seg rest ih =>
      intro acc hacc s hs
      unfold cleanSegs at hs
      by_cases h1 : seg = "" ∨ seg = "."
      · rw [if_pos h1] at hs
        exact ih acc hacc s hs
      · rw [if_neg h1] at hs
        by_cases h2 : seg = ".."
        · rw [if_pos h2] at hs
          cases acc with
          | nil =>
              simp only [if_pos rfl] at hs
              exact ih [] (by intro x hx; cases hx) s hs
          | cons a as =>
              have ha := hacc a (List.mem_cons_self a as)
              simp only [] at hs
              rw [if_neg ha.1] at hs
              exact ih as (fun x hx => hacc x (List.mem_cons_of_mem a hx)) s hs
        · rw [if_neg h2] at hs
          refine ih (seg :: acc) ?_ s hs
          intro x hx
          cases hx with
          | head =>
              push_neg at h1
              exact ⟨h2, h1.2, h1.1⟩
          | tail _ hx2 => exact hacc x hx2

/-- A walk whose segments never step upward cannot escape the root. -/
theorem escapesDir_false : ∀ (l : List String) (d : Nat),
    (∀ s ∈ l, s ≠ "..") → escapesDir d l = false := by
  intro l
  induction l with
  | nil => intro d _; rfl
  | cons seg rest ih =>
      intro d h
      unfold escapesDir
      rw [if_neg (h seg (List.mem_cons_self seg rest))]
      by_cases h2 : seg = "" ∨ seg = "."
      · rw [if_pos h2]
        exact ih d (fun x hx => h x (List.mem_cons_of_mem seg hx))
      · rw [if_neg h2]
        exact ih (d + 1) (fun x hx => h x (List.mem_cons_of_mem seg hx))

/-! ## Location-resolver lemmas -/

/-- The location resolver only fails when URL parsing fails, with the same
error. -/
theorem guess_err {store : SourceMapStore} {s : String} {e : GoError}
    (h : guessSourceMapLocation store s = .error e) : urlParse s = .error e := by
  unfold guessSourceMapLocation at h
  cases hu : urlParse s with
  | error e2 =>
      simp only [hu] at h
      injection h with h
      rw [h]
  | ok u =>
      simp only [hu] at h
      by_cases h1 : goStrHasPre u.path "/public/build/" = true
      · rw [if_pos h1] at h
        exact Except.noConfusion h
      · rw [if_neg h1] at h
        by_cases h2 : goStrHasPre u.path "/public/plugins/" = true
        · rw [if_pos h2] at h
          exact Except.noConfusion h
        · rw [if_neg h2] at h
          exact Except.noConfusion h

/-- The built-core branch of the location resolver. -/
theorem guess_build {store : SourceMapStore} {s : String} {u : GoURL}
    (hu : urlParse s = .ok u)
    (hb : goStrHasPre u.path "/public/build/" = true) :
    guessSourceMapLocation store s =
      .ok (some { dir := store.cfg.staticRootPath
                , path := filepathJoin2 "build" (strDropN u.path 14) ++ ".map"
                , pluginID := "" }) := by
  unfold guessSourceMapLocation
  simp only [hu]
  rw [if_pos hb]

/-- A path matching neither supported URL convention resolves to unknown. -/
theorem guess_none_of_no_pre {store : SourceMapStore} {s : String} {u : GoURL}
    (hu : urlParse s = .ok u)
    (h1 : goStrHasPre u.path "/public/build/" = false)
    (h2 : goStrHasPre u.path "/public/plugins/" = false) :
    guessSourceMapLocation store s = .ok none := by
  unfold guessSourceMapLocation
  simp only [hu]
  rw [if_neg (by simp [h1]), if_neg (by simp [h2])]

/-- Resolving the same frame a second time returns the same answer from the
cache, invoking nothing. -/
theorem resolve_idem {store : SourceMapStore} {fr : Frame} {r : Option Frame}
    {s : SourceMapStore} {t : CallTrace}
    (h : resolveSourceLocation store fr = (.ok r, s, t)) :
    resolveSourceLocation s fr = (.ok r, s, ⟨0, 0, 0⟩) := by
  rcases hg : getSourceMap store fr.filename with ⟨a, s1, t1⟩
  cases a with
  | error e =>
      rw [resolve_err hg] at h
      simp at h
  | ok o =>
      cases o with
      | none =>
          rw [resolve_none hg] at h
          simp only [Prod.mk.injEq, Except.ok.injEq] at h
          obtain ⟨h1, h2, -⟩ := h
          subst h2
          rw [resolve_none (getSourceMap_cached (getSourceMap_ok_cached hg)), h1]
      | some smap =>
          cases hsrc : smap.consumer.source fr.lineno fr.colno with
          | none =>
              rw [resolve_nomap hg hsrc] at h
              simp only [Prod.mk.injEq, Except.ok.injEq] at h
              obtain ⟨h1, h2, -⟩ := h
              subst h2
              rw [resolve_nomap (getSourceMap_cached (getSourceMap_ok_cached hg)) hsrc, h1]
          | some q =>
              obtain ⟨file, fn, line, col⟩ := q
              rw [resolve_mapped hg hsrc] at h
              simp only [Prod.mk.injEq, Except.ok.injEq] at h
              obtain ⟨h1, h2, -⟩ := h
              subst h2
              rw [resolve_mapped (getSourceMap_cached (getSourceMap_ok_cached hg)) hsrc, h1]

/-! ## Claim theorems -/

/-- C1 counterexample: a cached map asserting that minified (1,2) maps to
`orig.ts:10:5` with function name `""` does not resolve to a frame whose
function equals the asserted name — the code substitutes `"?"` — so the
claim as stated fails at this concrete input. -/
theorem c1_empty_function_counterexample :
    (resolveSourceLocation cexStore { filename := "min.js", lineno := 1, colno := 2 }).1 =
      .ok (some { filename := "orig.ts", lineno := 10, colno := 5
                , function := "?", module := "core" }) ∧
    ¬ (resolveSourceLocation cexStore { filename := "min.js", lineno := 1, colno := 2 }).1 =
      .ok (some { filename := "orig.ts", lineno := 10, colno := 5
                , function := "", module := "core" }) := by
  decide

/-- C1 (amended): for every URL whose cached parsed map asserts that
minified (L,C) maps to (F, L2, C2, Fn) with Fn non-empty, resolving a frame
with that URL at (L,C) yields exactly (F, L2, C2, Fn) with module `"core"`
or the owning plugin identifier; if the map has no mapping at that exact
position, it returns none without error. -/
theorem c1_round_trip :
    (∀ (store : SourceMapStore) (url : String) (smap : sourceMap)
       (L C L2 C2 : Int) (F Fn : String) (fr : Frame),
       lookupCache store.cache url = some (some smap) →
       smap.consumer.source L C = some (F, Fn, L2, C2) →
       Fn ≠ "" →
       fr.filename = url → fr.lineno = L → fr.colno = C →
       resolveSourceLocation store fr =
         (.ok (some { filename := F, lineno := L2, colno := C2, function := Fn
                    , module := if smap.pluginID.length > 0 then smap.pluginID else "core" })
         , store, ⟨0, 0, 0⟩)) ∧
    (∀ (store : SourceMapStore) (url : String) (smap : sourceMap)
       (L C : Int) (fr : Frame),
       lookupCache store.cache url = some (some smap) →
       smap.consumer.source L C = none →
       fr.filename = url → fr.lineno = L → fr.colno = C →
       resolveSourceLocation store fr = (.ok none, store, ⟨0, 0, 0⟩)) := by
  constructor
  · intro store url smap L C L2 C2 F Fn fr hcache hsrc hFn hfile hline hcol
    rw [← hfile] at hcache
    rw [← hline, ← hcol] at hsrc
    have hres := resolve_mapped (getSourceMap_cached hcache) hsrc
    have hlen : ¬ Fn.length = 0 := fun h0 => hFn (string_eq_empty_of_length_zero h0)
    rw [if_neg hlen] at hres
    exact hres
  · intro store url smap L C fr hcache hsrc hfile hline hcol
    rw [← hfile] at hcache
    rw [← hline, ← hcol] at hsrc
    exact resolve_nomap (getSourceMap_cached hcache) hsrc

theorem c1_round_trip_witness :
    lookupCache cachedStore.cache "u.js" =
      some (some { consumer := exConsumer, pluginID := "acme-panel" }) ∧
    exConsumer.source 1 2 = some ("module.ts", "orig.fn", 3, 7) ∧
    ("orig.fn" : String) ≠ "" ∧
    resolveSourceLocation cachedStore { filename := "u.js", lineno := 1, colno := 2 } =
      (.ok (some { filename := "module.ts", lineno := 3, colno := 7
                 , function := "orig.fn", module := "acme-panel" })
      , cachedStore, ⟨0, 0, 0⟩) :=
  ⟨rfl, rfl, by decide,
   c1_round_trip.1 cachedStore "u.js" { consumer := exConsumer, pluginID := "acme-panel" }
     1 2 3 7 "module.ts" "orig.fn" { filename := "u.js", lineno := 1, colno := 2 }
     rfl rfl (by decide) rfl rfl rfl⟩

/-- C2: an unknown location (in particular, a path matching neither
supported URL prefix) or an absent map file yields none without error,
records a negative cache entry for the URL, and — for the store's whole
remaining lifetime, i.e. after any further sequence of calls — the guess
and the reader are never invoked again for that URL (the repeat call's
trace is all zeros). -/
theorem c2_negative_caching :
    (∀ (store : SourceMapStore) (url : String) (u : GoURL),
       urlParse url = .ok u →
       goStrHasPre u.path "/public/build/" = false →
       goStrHasPre u.path "/public/plugins/" = false →
       guessSourceMapLocation store url = .ok none) ∧
    (∀ (store : SourceMapStore) (url : String),
       lookupCache store.cache url = none →
       (guessSourceMapLocation store url = .ok none ∨
        (∃ loc err, guessSourceMapLocation store url = .ok (some loc) ∧
           store.readSourceMap loc.dir (normalizeMapPath loc.path) = .error err ∧
           isNotExist err = true)) →
       (getSourceMap store url).1 = .ok none ∧
       lookupCache ((getSourceMap store url).2.1).cache url = some none ∧
       (∀ us : List String,
          getSourceMap (runCalls ((getSourceMap store url).2.1) us) url =
            (.ok none, runCalls ((getSourceMap store url).2.1) us, ⟨0, 0, 0⟩))) := by
  constructor
  · intro store url u hu h1 h2
    exact guess_none_of_no_pre hu h1 h2
  · intro store url hmiss hcase
    have hstep : (getSourceMap store url).1 = .ok none ∧
        (getSourceMap store url).2.1 =
          { store with cache := (url, none) :: store.cache } := by
      cases hcase with
      | inl hg =>
          rw [getSourceMap_miss hmiss, miss_unknown hg]
          exact ⟨rfl, rfl⟩
      | inr hex =>
          obtain ⟨loc, err, hg, hr, hx⟩ := hex
          rw [getSourceMap_miss hmiss, miss_some hg, load_notfound hr hx]
          exact ⟨rfl, rfl⟩
    refine ⟨hstep.1, ?_, ?_⟩
    · rw [hstep.2]
      exact lookup_insert_self _ _ _
    · intro us
      rw [hstep.2]
      exact getSourceMap_cached
        (runCalls_preserved (lookup_insert_self store.cache url none) us)

theorem c2_negative_caching_witness :
    lookupCache exStore.cache "https://example.com/other/app.js" = none ∧
    guessSourceMapLocation exStore "https://example.com/other/app.js" = .ok none ∧
    (getSourceMap exStore "https://example.com/other/app.js").1 = .ok none ∧
    lookupCache ((getSourceMap exStore "https://example.com/other/app.js").2.1).cache
      "https://example.com/other/app.js" = some none ∧
    getSourceMap
        (runCalls ((getSourceMap exStore "https://example.com/other/app.js").2.1)
          ["https://example.com/other/app.js", "https://example.com/x.js"])
        "https://example.com/other/app.js" =
      (.ok none
      , runCalls ((getSourceMap exStore "https://example.com/other/app.js").2.1)
          ["https://example.com/other/app.js", "https://example.com/x.js"]
      , ⟨0, 0, 0⟩) := by
  have h1 : lookupCache exStore.cache "https://example.com/other/app.js" = none := rfl
  have h2 : guessSourceMapLocation exStore "https://example.com/other/app.js" = .ok none := by
    decide
  have hmain := c2_negative_caching.2 exStore "https://example.com/other/app.js" h1 (Or.inl h2)
  exact ⟨h1, h2, hmain.1, hmain.2.1,
    hmain.2.2 ["https://example.com/other/app.js", "https://example.com/x.js"]⟩

/-- C3: a URL with a cache entry (positive or negative) is answered from
the cache with the identical stored result and a zero trace (no resolver,
reader or parser call); consequently a successfully answered frame
resolution, repeated, returns the identical result with a zero trace. -/
theorem c3_idempotence :
    (∀ (store : SourceMapStore) (url : String) (entry : Option sourceMap),
       lookupCache store.cache url = some entry →
       getSourceMap store url = (.ok entry, store, ⟨0, 0, 0⟩)) ∧
    (∀ (store : SourceMapStore) (fr : Frame) (r : Option Frame)
       (s : SourceMapStore) (t : CallTrace),
       resolveSourceLocation store fr = (.ok r, s, t) →
       resolveSourceLocation s fr = (.ok r, s, ⟨0, 0, 0⟩)) :=
  ⟨fun _ _ _ h => getSourceMap_cached h, fun _ _ _ _ _ h => resolve_idem h⟩

theorem c3_idempotence_witness :
    lookupCache cachedStore.cache "u.js" =
      some (some { consumer := exConsumer, pluginID := "acme-panel" }) ∧
    getSourceMap cachedStore "u.js" =
      (.ok (some { consumer := exConsumer, pluginID := "acme-panel" })
      , cachedStore, ⟨0, 0, 0⟩) ∧
    resolveSourceLocation cexStore { filename := "min.js", lineno := 1, colno := 2 } =
      (.ok (some { filename := "orig.ts", lineno := 10, colno := 5
                 , function := "?", module := "core" })
      , cexStore, ⟨0, 0, 0⟩) :=
  ⟨rfl,
   c3_idempotence.1 cachedStore "u.js"
     (some { consumer := exConsumer, pluginID := "acme-panel" }) rfl,
   c3_idempotence.2 cexStore { filename := "min.js", lineno := 1, colno := 2 }
     (some { filename := "orig.ts", lineno := 10, colno := 5
           , function := "?", module := "core" })
     cexStore ⟨0, 0, 0⟩ rfl⟩

/-- C4: a non-"not found" reader error, and a parse failure of the read
bytes, both propagate to the caller, leave the store unchanged (no cache
entry for the URL), and a repeat call re-attempts the read (and the parse),
as its trace shows. -/
theorem c4_error_atomicity :
    (∀ (store : SourceMapStore) (url : String) (loc : sourceMapLocation) (err : GoError),
       lookupCache store.cache url = none →
       guessSourceMapLocation store url = .ok (some loc) →
       store.readSourceMap loc.dir (normalizeMapPath loc.path) = .error err →
       isNotExist err = false →
       getSourceMap store url = (.error err, store, ⟨1, 1, 0⟩) ∧
       lookupCache ((getSourceMap store url).2.1).cache url = none ∧
       getSourceMap ((getSourceMap store url).2.1) url = (.error err, store, ⟨1, 1, 0⟩)) ∧
    (∀ (store : SourceMapStore) (url : String) (loc : sourceMapLocation)
       (b : String) (err : GoError),
       lookupCache store.cache url = none →
       guessSourceMapLocation store url = .ok (some loc) →
       store.readSourceMap loc.dir (normalizeMapPath loc.path) = .ok b →
       store.parse (url ++ ".map") b = .error err →
       getSourceMap store url = (.error err, store, ⟨1, 1, 1⟩) ∧
       lookupCache ((getSourceMap store url).2.1).cache url = none ∧
       getSourceMap ((getSourceMap store url).2.1) url = (.error err, store, ⟨1, 1, 1⟩)) := by
  constructor
  · intro store url loc err hmiss hg hr hx
    have hstep : getSourceMap store url = (.error err, store, ⟨1, 1, 0⟩) := by
      rw [getSourceMap_miss hmiss, miss_some hg, load_readerr hr hx]
    refine ⟨hstep, ?_, ?_⟩
    · rw [hstep]
      exact hmiss
    · rw [hstep]
      exact hstep
  · intro store url loc b err hmiss hg hr hp
    have hstep : getSourceMap store url = (.error err, store, ⟨1, 1, 1⟩) := by
      rw [getSourceMap_miss hmiss, miss_some hg, load_parseerr hr hp]
    refine ⟨hstep, ?_, ?_⟩
    · rw [hstep]
      exact hmiss
    · rw [hstep]
      exact hstep

theorem c4_error_atomicity_witness :
    lookupCache readErrStore.cache "http://g/public/build/app.js" = none ∧
    guessSourceMapLocation readErrStore "http://g/public/build/app.js" =
      .ok (some { dir := "/usr/share/grafana/public", path := "build/app.js.map", pluginID := "" }) ∧
    readErrStore.readSourceMap "/usr/share/grafana/public" (normalizeMapPath "build/app.js.map") =
      .error (.ioError "permission denied") ∧
    isNotExist (.ioError "permission denied") = false ∧
    getSourceMap readErrStore "http://g/public/build/app.js" =
      (.error (.ioError "permission denied"), readErrStore, ⟨1, 1, 0⟩) ∧
    lookupCache ((getSourceMap readErrStore "http://g/public/build/app.js").2.1).cache
      "http://g/public/build/app.js" = none ∧
    getSourceMap parseErrStore "http://g/public/build/app.js" =
      (.error (.parseError "malformed source map"), parseErrStore, ⟨1, 1, 1⟩) := by
  have hpart1 := c4_error_atomicity.1 readErrStore "http://g/public/build/app.js"
    { dir := "/usr/share/grafana/public", path := "build/app.js.map", pluginID := "" }
    (.ioError "permission denied") rfl (by decide) rfl (by decide)
  have hpart2 := c4_error_atomicity.2 parseErrStore "http://g/public/build/app.js"
    { dir := "/usr/share/grafana/public", path := "build/app.js.map", pluginID := "" }
    "mapbytes" (.parseError "malformed source map") rfl (by decide) rfl rfl
  exact ⟨rfl, by decide, rfl, by decide, hpart1.1, hpart1.2.1, hpart2.1⟩

/-- C5: the location resolver fails only on a malformed URL (and then with
the URL parser's own error); for every URL whose path starts with
`/public/build/`, it returns the configured static root as directory, the
prefix-stripped remainder joined under `"build"` with `".map"` appended as
path, and no owning plugin. -/
theorem c5_build_location :
    (∀ (store : SourceMapStore) (s : String) (e : GoError),
       guessSourceMapLocation store s = .error e → urlParse s = .error e) ∧
    (∀ (store : SourceMapStore) (s : String) (u : GoURL),
       urlParse s = .ok u →
       goStrHasPre u.path "/public/build/" = true →
       guessSourceMapLocation store s =
         .ok (some { dir := store.cfg.staticRootPath
                   , path := filepathJoin2 "build" (strDropN u.path 14) ++ ".map"
                   , pluginID := "" })) :=
  ⟨fun _ _ _ h => guess_err h, fun _ _ _ hu hb => guess_build hu hb⟩

theorem c5_build_location_witness :
    guessSourceMapLocation exStore "http://local\x01host/x.js" =
      .error (.urlError "invalid control character in URL") ∧
    urlParse "http://local\x01host/x.js" =
      .error (.urlError "invalid control character in URL") ∧
    urlParse "http://localhost:3000/public/build/app.js" = .ok ⟨"/public/build/app.js"⟩ ∧
    goStrHasPre "/public/build/app.js" "/public/build/" = true ∧
    guessSourceMapLocation exStore "http://localhost:3000/public/build/app.js" =
      .ok (some { dir := exStore.cfg.staticRootPath
                , path := filepathJoin2 "build" (strDropN "/public/build/app.js" 14) ++ ".map"
                , pluginID := "" }) :=
  ⟨by decide,
   c5_build_location.1 exStore "http://local\x01host/x.js"
     (.urlError "invalid control character in URL") (by decide),
   by decide, by decide,
   c5_build_location.2 exStore "http://localhost:3000/public/build/app.js"
     ⟨"/public/build/app.js"⟩ (by decide) (by decide)⟩

/-- C6: every successfully resolved frame carries module `"core"` exactly
when the cached map has no owning plugin identifier and that identifier
otherwise, and a function name that is empty in the map becomes `"?"`;
concretely, a frame under `/public/plugins/acme-panel/module.js` resolves
with module `"acme-panel"`, one under `/public/build/app.js` with module
`"core"`, and an empty map function name resolves to `"?"`. -/
theorem c6_module_attribution :
    (∀ (store : SourceMapStore) (url : String) (smap : sourceMap)
       (L C L2 C2 : Int) (F Fn : String) (fr : Frame),
       lookupCache store.cache url = some (some smap) →
       smap.consumer.source L C = some (F, Fn, L2, C2) →
       fr.filename = url → fr.lineno = L → fr.colno = C →
       resolveSourceLocation store fr =
         (.ok (some { filename := F, lineno := L2, colno := C2
                    , function := if Fn.length = 0 then "?" else Fn
                    , module := if smap.pluginID.length > 0 then smap.pluginID else "core" })
         , store, ⟨0, 0, 0⟩)) ∧
    ((resolveSourceLocation exStore
        { filename := "https://play.grafana.org/public/plugins/acme-panel/module.js"
        , lineno := 1, colno := 2 }).1 =
      .ok (some { filename := "module.ts", lineno := 3, colno := 7
                , function := "orig.fn", module := "acme-panel" })) ∧
    ((resolveSourceLocation exStore
        { filename := "https://play.grafana.org/public/build/app.js"
        , lineno := 1, colno := 2 }).1 =
      .ok (some { filename := "module.ts", lineno := 3, colno := 7
                , function := "orig.fn", module := "core" })) ∧
    ((resolveSourceLocation cexStore { filename := "min.js", lineno := 1, colno := 2 }).1 =
      .ok (some { filename := "orig.ts", lineno := 10, colno := 5
                , function := "?", module := "core" })) := by
  refine ⟨?_, by decide, by decide, by decide⟩
  intro store url smap L C L2 C2 F Fn fr hcache hsrc hfile hline hcol
  rw [← hfile] at hcache
  rw [← hline, ← hcol] at hsrc
  exact resolve_mapped (getSourceMap_cached hcache) hsrc

theorem c6_module_attribution_witness :
    lookupCache cexStore.cache "min.js" =
      some (some { consumer := emptyFnConsumer, pluginID := "" }) ∧
    emptyFnConsumer.source 1 2 = some ("orig.ts", "", 10, 5) ∧
    resolveSourceLocation cexStore { filename := "min.js", lineno := 1, colno := 2 } =
      (.ok (some { filename := "orig.ts", lineno := 10, colno := 5
                 , function := "?", module := "core" })
      , cexStore, ⟨0, 0, 0⟩) :=
  ⟨rfl, rfl,
   c6_module_attribution.1 cexStore "min.js" { consumer := emptyFnConsumer, pluginID := "" }
     1 2 10 5 "orig.ts" "" { filename := "min.js", lineno := 1, colno := 2 }
     rfl rfl rfl rfl rfl⟩

/-- C7: for every URL the location resolver accepts, the normalized
relative path, as walked by the scoped filesystem reader (which opens
`path.Clean ("/" ++ name)` inside the resolved directory), consists only of
plain descending segments — no `".."`, `"."` or empty step — so the walk
never escapes the directory, and the scoped read depends only on the
filesystem's contents inside that directory. -/
theorem c7_no_traversal :
    ∀ (store : SourceMapStore) (url : String) (loc : sourceMapLocation),
      guessSourceMapLocation store url = .ok (some loc) →
      (∀ s ∈ httpDirOpenSegs (normalizeMapPath loc.path), s ≠ ".." ∧ s ≠ "." ∧ s ≠ "") ∧
      escapesDir 0 (httpDirOpenSegs (normalizeMapPath loc.path)) = false ∧
      (∀ fs fs2 : String → List String → Option String,
         (∀ segs, escapesDir 0 segs = false → fs loc.dir segs = fs2 loc.dir segs) →
         ReadSourceMapFromFs fs loc.dir (normalizeMapPath loc.path) =
           ReadSourceMapFromFs fs2 loc.dir (normalizeMapPath loc.path)) := by
  intro store url loc _
  have hplain : ∀ s ∈ httpDirOpenSegs (normalizeMapPath loc.path),
      s ≠ ".." ∧ s ≠ "." ∧ s ≠ "" :=
    cleanSegs_plain _ [] (by intro x hx; cases hx)
  have hesc : escapesDir 0 (httpDirOpenSegs (normalizeMapPath loc.path)) = false :=
    escapesDir_false _ 0 (fun s hs => (hplain s hs).1)
  refine ⟨hplain, hesc, ?_⟩
  intro fs fs2 hagree
  unfold ReadSourceMapFromFs
  rw [hagree _ hesc]

theorem c7_no_traversal_witness :
    guessSourceMapLocation exStore "http://g/public/build/../../../etc/passwd" =
      .ok (some { dir := "/usr/share/grafana/public"
                , path := "../../etc/passwd.map", pluginID := "" }) ∧
    escapesDir 0 (httpDirOpenSegs (normalizeMapPath "../../etc/passwd.map")) = false :=
  ⟨by decide,
   (c7_no_traversal exStore "http://g/public/build/../../../etc/passwd"
     { dir := "/usr/share/grafana/public", path := "../../etc/passwd.map", pluginID := "" }
     (by decide)).2.1⟩

/-- C9: plugin route matching is a plain string-prefix test with no
path-separator boundary after the identifier: with routes registered in the
order `"acme"`, `"acme-panel"`, the URL of plugin `"acme-panel"` matches the
earlier `"acme"` route and is attributed to it, with the relative path
computed from the shorter prefix. -/
theorem c9_route_shadowing :
    guessSourceMapLocation shadowStore
        "https://grafana.example.com/public/plugins/acme-panel/module.js" =
      .ok (some { dir := "/plugins/acme", path := "-panel/module.js.map", pluginID := "acme" }) ∧
    shadowStore.staticRoutes =
      [ { pluginId := "acme", directory := "/plugins/acme" }
      , { pluginId := "acme-panel", directory := "/plugins/acme-panel" } ] := by
  decide

/-- C10: a successfully resolved frame is freshly constructed: only
filename, line, column, function and module are set; every other field of
the reported frame (absolute path, symbol, package, context line, in-app
flag) is the zero value rather than carried over — and the input frame
itself, being passed by value in a pure embedding, is never mutated. -/
theorem c10_fresh_frame :
    ∀ (store : SourceMapStore) (fr f : Frame) (s : SourceMapStore) (t : CallTrace),
      resolveSourceLocation store fr = (.ok (some f), s, t) →
      f.absPath = "" ∧ f.symbol = "" ∧ f.package = "" ∧
      f.contextLine = "" ∧ f.inApp = false := by
  intro store fr f s t h
  rcases hg : getSourceMap store fr.filename with ⟨a, s1, t1⟩
  cases a with
  | error e => rw [resolve_err hg] at h; simp at h
  | ok o =>
      cases o with
      | none => rw [resolve_none hg] at h; simp at h
      | some smap =>
          cases hsrc : smap.consumer.source fr.lineno fr.colno with
          | none => rw [resolve_nomap hg hsrc] at h; simp at h
          | some q =>
              obtain ⟨file, fn, line, col⟩ := q
              rw [resolve_mapped hg hsrc] at h
              simp only [Prod.mk.injEq, Except.ok.injEq, Option.some.injEq] at h
              obtain ⟨h1, -, -⟩ := h
              rw [← h1]
              exact ⟨rfl, rfl, rfl, rfl, rfl⟩

theorem c10_fresh_frame_witness :
    resolveSourceLocation cexStore
        { filename := "min.js", absPath := "/srv/min.js", contextLine := "ctx"
        , inApp := true, lineno := 1, colno := 2 } =
      (.ok (some { filename := "orig.ts", lineno := 10, colno := 5
                 , function := "?", module := "core" })
      , cexStore, ⟨0, 0, 0⟩) ∧
    (({ filename := "orig.ts", lineno := 10, colno := 5
      , function := "?", module := "core" } : Frame).absPath = "" ∧
     ({ filename := "orig.ts", lineno := 10, colno := 5
      , function := "?", module := "core" } : Frame).symbol = "" ∧
     ({ filename := "orig.ts", lineno := 10, colno := 5
      , function := "?", module := "core" } : Frame).package = "" ∧
     ({ filename := "orig.ts", lineno := 10, colno := 5
      , function := "?", module := "core" } : Frame).contextLine = "" ∧
     ({ filename := "orig.ts", lineno := 10, colno := 5
      , function := "?", module := "core" } : Frame).inApp = false) :=
  ⟨rfl,
   c10_fresh_frame cexStore
     { filename := "min.js", absPath := "/srv/min.js", contextLine := "ctx"
     , inApp := true, lineno := 1, colno := 2 }
     { filename := "orig.ts", lineno := 10, colno := 5, function := "?", module := "core" }
     cexStore ⟨0, 0, 0⟩ rfl⟩

end FrontendLogging
